import Mathlib

/-!
argocd-commenter: the notification decision of the health-status controller.

A shallow embedding of `controllers/applicationhealthstatus_controller.go`
(`Reconcile`, `healthStatusCommentFor`, `applicationHealthStatusChangePredicate`)
and of `pkg/github/client.go` (`NewClient`), followed by the properties proved
about them.

Conventions of the embedding:

* Go `error` values are terms of `Err`; a `nil` error is `none`.
* The cluster API, the GitHub transport and the process environment are
  explicit arguments.  Every outbound call made by `Reconcile` is appended to
  a trace of `Call`s, so that "issues no patch", "exactly one send" and
  "patch before send" are statements about that list.
* `fmt.Sprintf` with `%s` verbs on strings is string concatenation.
-/

namespace ArgocdCommenter

/-! ## Errors and results -/

/-- Go `error` values that can reach the controller: the API server's
`NotFound` status, any other failure carrying its text, or an error wrapped by
`fmt.Errorf("...: %w", err)`. -/
inductive Err where
  | notFound
  | other (msg : String)
  | wrapped (msg : String) (inner : Err)
  deriving DecidableEq

/-- Result type `ctrl.Result` of controller-runtime: whether and when to requeue. -/
structure Result where
  Requeue : Bool := false
  RequeueAfter : Nat := 0
  deriving DecidableEq

/-- Function `client.IgnoreNotFound`: `nil` for a NotFound error, the error otherwise. -/
def IgnoreNotFound (err : Err) : Option Err :=
  match err with
  | .notFound => none
  | e => some e

/-! ## Data model -/

/-- Go `map[string]string`, as an association list read at its first match. -/
abbrev Annotations := List (String × String)

/-- Map read `m[key]` with the comma-ok form: `some v` when the key is present. -/
def Annotations.get (m : Annotations) (key : String) : Option String :=
  match m with
  | [] => none
  | (k, v) :: rest => if k = key then some v else Annotations.get rest key

/-- Map write `m[key] = value`. -/
def Annotations.set (m : Annotations) (key value : String) : Annotations :=
  (key, value) :: m.filter (fun kv => decide (kv.1 ≠ key))

/-- Type `types.NamespacedName`. -/
structure NamespacedName where
  Namespace : String
  Name : String
  deriving DecidableEq

/-- Field `Status.Health` of an Application. -/
structure HealthStatus where
  Status : String
  deriving DecidableEq

/-- Field `Status.Sync` of an Application. -/
structure SyncStatus where
  Status : String
  Revision : String
  deriving DecidableEq

/-- Field `Status` of an Application. -/
structure ApplicationStatus where
  Sync : SyncStatus
  Health : HealthStatus
  deriving DecidableEq

/-- Field `Spec.Source` of an Application. -/
structure ApplicationSource where
  RepoURL : String
  deriving DecidableEq

/-- Field `Spec` of an Application. -/
structure ApplicationSpec where
  Source : ApplicationSource
  deriving DecidableEq

/-- Type `argocdv1alpha1.Application`, with the fields the controller reads
(the embedded `ObjectMeta` is flattened, as Go's field promotion does). -/
structure Application where
  Namespace : String
  Name : String
  Annotations : Annotations
  Spec : ApplicationSpec
  Status : ApplicationStatus
  deriving DecidableEq

/-- Constant `health.HealthStatusHealthy` of gitops-engine. -/
def HealthStatusHealthy : String := "Healthy"

/-- Constant `health.HealthStatusDegraded` of gitops-engine. -/
def HealthStatusDegraded : String := "Degraded"

/-- Annotation key of the dedup marker. -/
def lastRevisionHealthy : String := "argocd-commenter.int128.github.io/last-revision-healthy"

/-- Type `github.Repository`: owner and name of a GitHub repository. -/
structure Repository where
  Owner : String
  Name : String
  deriving DecidableEq

/-- Type `github.Comment`: the outbound message. -/
structure Comment where
  Repository : Repository
  CommitSHA : String
  Body : String
  deriving DecidableEq

/-! ## Notification composer -/

/-- Function `healthStatusCommentFor`. -/
def healthStatusCommentFor (a : Application) : String :=
  if a.Status.Health.Status = HealthStatusHealthy then
    ":white_check_mark: " ++ a.Status.Health.Status ++ ": " ++ a.Name
  else
    ":warning: " ++ a.Status.Sync.Status ++ ": " ++ a.Name

/-! ## Event filter -/

/-- A `client.Object` carried by an event: an Application, or an object of
another kind (for which the type assertion `.(*Application)` fails). -/
inductive Object where
  | application (a : Application)
  | other (kind : String)
  deriving DecidableEq

/-- Type `event.CreateEvent`. -/
structure CreateEvent where
  Object : Object
  deriving DecidableEq

/-- Type `event.DeleteEvent`. -/
structure DeleteEvent where
  Object : Object
  deriving DecidableEq

/-- Type `event.UpdateEvent`. -/
structure UpdateEvent where
  ObjectOld : Object
  ObjectNew : Object
  deriving DecidableEq

/-- Type `event.GenericEvent`. -/
structure GenericEvent where
  Object : Object
  deriving DecidableEq

/-- The four kinds of event the watch delivers to a predicate. -/
inductive Event where
  | create (e : CreateEvent)
  | delete (e : DeleteEvent)
  | update (e : UpdateEvent)
  | generic (e : GenericEvent)
  deriving DecidableEq

/-- Type `applicationHealthStatusChangePredicate`, an empty struct. -/
structure applicationHealthStatusChangePredicate where
  deriving DecidableEq

/-- Method `Create` of the predicate. -/
def applicationHealthStatusChangePredicate.Create
    (_p : applicationHealthStatusChangePredicate) (_e : CreateEvent) : Bool :=
  false

/-- Method `Delete` of the predicate. -/
def applicationHealthStatusChangePredicate.Delete
    (_p : applicationHealthStatusChangePredicate) (_e : DeleteEvent) : Bool :=
  false

/-- Method `Update` of the predicate. -/
def applicationHealthStatusChangePredicate.Update
    (_p : applicationHealthStatusChangePredicate) (e : UpdateEvent) : Bool :=
  match e.ObjectOld with
  | .other _ => false
  | .application applicationOld =>
    match e.ObjectNew with
    | .other _ => false
    | .application applicationNew =>
      if applicationOld.Status.Health.Status = applicationNew.Status.Health.Status then
        false
      else if applicationNew.Status.Health.Status = HealthStatusHealthy
          ∨ applicationNew.Status.Health.Status = HealthStatusDegraded then
        true
      else
        false

/-- Method `Generic` of the predicate. -/
def applicationHealthStatusChangePredicate.Generic
    (_p : applicationHealthStatusChangePredicate) (_e : GenericEvent) : Bool :=
  false

/-- How controller-runtime consults an event filter: each event goes to the
method of its kind. -/
def applicationHealthStatusChangePredicate.admits
    (p : applicationHealthStatusChangePredicate) (e : Event) : Bool :=
  match e with
  | .create e => p.Create e
  | .delete e => p.Delete e
  | .update e => p.Update e
  | .generic e => p.Generic e

/-! ## GitHub client construction (`pkg/github/client.go`) -/

/-- Type `app.Config` of oauth2-github-app, over the type `Key` of parsed
private keys. -/
structure Config (Key : Type) where
  PrivateKey : Key
  AppID : String
  InstallationID : String
  deriving DecidableEq

/-- The `oauth2.TokenSource` a REST client authenticates with: a static
access token, or the installation tokens of a GitHub App. -/
inductive TokenSource (Key : Type) where
  | static (AccessToken : String)
  | app (cfg : Config Key)
  deriving DecidableEq

/-- Type `client`: the REST client, identified by its token source. -/
structure client (Key : Type) where
  rest : TokenSource Key
  deriving DecidableEq

/-- Function `newClientWithPersonalAccessToken`. -/
def newClientWithPersonalAccessToken {Key : Type} (token : String) : client Key :=
  { rest := .static token }

/-- Function `newClientForGitHubApp`; `ParsePrivateKey` is `app.ParsePrivateKey`
of oauth2-github-app. -/
def newClientForGitHubApp {Key : Type} (ParsePrivateKey : String → Except Err Key)
    (appID installationID privateKey : String) : Except Err (client Key) :=
  match ParsePrivateKey privateKey with
  | .error err => .error (.wrapped "invalid GITHUB_APP_PRIVATE_KEY" err)
  | .ok k =>
    let cfg : Config Key := { PrivateKey := k, AppID := appID, InstallationID := installationID }
    .ok { rest := .app cfg }

/-- Function `NewClient`; `Getenv` is `os.Getenv`, which yields the empty
string for an unset variable. -/
def NewClient {Key : Type} (ParsePrivateKey : String → Except Err Key)
    (Getenv : String → String) : Except Err (client Key) :=
  let token := Getenv "GITHUB_TOKEN"
  if token ≠ "" then
    .ok (newClientWithPersonalAccessToken token)
  else
    let appID := Getenv "GITHUB_APP_ID"
    let installationID := Getenv "GITHUB_APP_INSTALLATION_ID"
    let privateKey := Getenv "GITHUB_APP_PRIVATE_KEY"
    if appID ≠ "" ∧ installationID ≠ "" ∧ privateKey ≠ "" then
      newClientForGitHubApp ParsePrivateKey appID installationID privateKey
    else
      .error (.other "you need to set either GITHUB_TOKEN or GITHUB_APP_ID")

/-- The static-token credential mode is configured. -/
def tokenConfigured (Getenv : String → String) : Prop :=
  Getenv "GITHUB_TOKEN" ≠ ""

/-- The app credential mode is configured completely. -/
def appConfigured (Getenv : String → String) : Prop :=
  Getenv "GITHUB_APP_ID" ≠ "" ∧ Getenv "GITHUB_APP_INSTALLATION_ID" ≠ ""
    ∧ Getenv "GITHUB_APP_PRIVATE_KEY" ≠ ""

instance (Getenv : String → String) : Decidable (tokenConfigured Getenv) :=
  inferInstanceAs (Decidable (_ ≠ _))

instance (Getenv : String → String) : Decidable (appConfigured Getenv) :=
  inferInstanceAs (Decidable (_ ∧ _ ∧ _))

/-! ## Cluster store and outbound calls -/

/-- What the API server keeps for an Application under its namespaced name. -/
structure StoredApplication where
  Annotations : Annotations
  Spec : ApplicationSpec
  Status : ApplicationStatus
  deriving DecidableEq

/-- The resource store: Applications by namespaced name. -/
abbrev Cluster := NamespacedName → Option StoredApplication

/-- Key under which an Application is stored. -/
def Application.key (a : Application) : NamespacedName :=
  { Namespace := a.Namespace, Name := a.Name }

/-- Method `r.Get` of the embedded `client.Client`: a transport failure
`fault`, NotFound when nothing is stored under the key, the stored object
otherwise. -/
def Get (c : Cluster) (fault : Option Err) (key : NamespacedName) : Except Err Application :=
  match fault with
  | some err => .error err
  | none =>
    match c key with
    | none => .error .notFound
    | some o =>
      .ok { Namespace := key.Namespace, Name := key.Name, Annotations := o.Annotations,
            Spec := o.Spec, Status := o.Status }

/-- Modelled from the spec: `patchAnnotation` is called by `Reconcile` but
defined in another file of package `controllers`.  The spec gives
`patch(resource, mutation-function) -> ok | error`, "applying a partial update
to the annotations mapping only, preserving all other fields".  A failure
(`fault`, or NotFound) leaves the store as it was. -/
def patchAnnotation (c : Cluster) (fault : Option Err) (a : Application)
    (mutate : Annotations → Annotations) : Option Err × Cluster :=
  match fault with
  | some err => (some err, c)
  | none =>
    match c a.key with
    | none => (some .notFound, c)
    | some o =>
      (none, fun k => if k = a.key then some { o with Annotations := mutate o.Annotations } else c k)

/-- An outbound call issued by `Reconcile`: a `patchAnnotation` call on an
Application, recorded with the annotations its mutation produces, or a
`GitHubClient.AddComment` call. -/
inductive Call where
  | patch (a : Application) (annotations : Annotations)
  | addComment (comment : Comment)
  deriving DecidableEq

/-- How the collaborators answer during one run: the failure (if any) of the
fetch and of the patch, and the error (if any) `AddComment` returns. -/
structure Answers where
  getFault : Option Err
  patchFault : Option Err
  AddComment : Comment → Option Err

/-- What one run of `Reconcile` returns and does: the `(ctrl.Result, error)`
pair, the calls issued in order, and the store afterwards. -/
structure Outcome where
  result : Result
  err : Option Err
  calls : List Call
  cluster : Cluster

/-- Lines 62 to 85 of `Reconcile`: patch the marker, resolve the repository,
compose and send.  `ParseRepositoryURL` is `github.ParseRepositoryURL`. -/
def patchAndComment (ParseRepositoryURL : String → Except Err Repository) (w : Answers)
    (c : Cluster) (application : Application) : Outcome :=
  let mutate : Annotations → Annotations := fun annotations =>
    annotations.set lastRevisionHealthy application.Status.Sync.Revision
  let patchCall := Call.patch application (mutate application.Annotations)
  match patchAnnotation c w.patchFault application mutate with
  | (some err, c1) => { result := {}, err := some err, calls := [patchCall], cluster := c1 }
  | (none, c1) =>
    match ParseRepositoryURL application.Spec.Source.RepoURL with
    | .error _ => { result := {}, err := none, calls := [patchCall], cluster := c1 }
    | .ok repository =>
      let comment : Comment :=
        { Repository := repository
          CommitSHA := application.Status.Sync.Revision
          Body := healthStatusCommentFor application }
      match w.AddComment comment with
      | some _ =>
        { result := {}, err := none, calls := [patchCall, .addComment comment], cluster := c1 }
      | none =>
        { result := {}, err := none, calls := [patchCall, .addComment comment], cluster := c1 }

/-- Method `ApplicationHealthStatusReconciler.Reconcile`. -/
def Reconcile (ParseRepositoryURL : String → Except Err Repository) (w : Answers)
    (c : Cluster) (req : NamespacedName) : Outcome :=
  match Get c w.getFault req with
  | .error err => { result := {}, err := IgnoreNotFound err, calls := [], cluster := c }
  | .ok application =>
    match application.Annotations.get lastRevisionHealthy with
    | some lastRevision =>
      if lastRevision = application.Status.Sync.Revision then
        { result := {}, err := none, calls := [], cluster := c }
      else
        patchAndComment ParseRepositoryURL w c application
    | none => patchAndComment ParseRepositoryURL w c application

/-! ## Sequences of runs on one Application -/

/-- The dedup marker the store holds for the Application under `req`. -/
def storedMarker (c : Cluster) (req : NamespacedName) : Option String :=
  match c req with
  | none => none
  | some o => o.Annotations.get lastRevisionHealthy

/-- The revision the store holds for the Application under `req`. -/
def storedRevision (c : Cluster) (req : NamespacedName) : Option String :=
  match c req with
  | none => none
  | some o => some o.Status.Sync.Revision

/-- One delivery in a sequence: the spec and status the Application has when
the run starts (the deployment may have moved on since the previous run) and
the collaborators' answers during the run. -/
structure Step where
  Spec : ApplicationSpec
  Status : ApplicationStatus
  answers : Answers

/-- The cluster writes a new spec and status to the Application under `req`;
its annotations are left alone. -/
def deploy (c : Cluster) (req : NamespacedName) (spec : ApplicationSpec)
    (status : ApplicationStatus) : Cluster :=
  fun k =>
    if k = req then
      match c k with
      | none => none
      | some o => some { o with Spec := spec, Status := status }
    else c k

/-- All calls issued by a sequence of runs of `Reconcile` for `req`, each run
starting from the store the previous one left. -/
def runs (ParseRepositoryURL : String → Except Err Repository) (req : NamespacedName) :
    Cluster → List Step → List Call
  | _, [] => []
  | c, s :: rest =>
    let o := Reconcile ParseRepositoryURL s.answers (deploy c req s.Spec s.Status) req
    o.calls ++ runs ParseRepositoryURL req o.cluster rest

/-- Whether a call is an `AddComment` for commit `R`. -/
def Call.isSendFor (R : String) : Call → Bool
  | .addComment comment => decide (comment.CommitSHA = R)
  | .patch _ _ => false

/-- Whether a call is an `AddComment`. -/
def Call.isSend : Call → Bool
  | .addComment _ => true
  | .patch _ _ => false

/-- Number of `AddComment` calls for commit `R` in a trace. -/
def sendsFor (R : String) (calls : List Call) : Nat :=
  calls.countP (Call.isSendFor R)

/-- Number of times `R` becomes the deployed revision along a sequence: the
steps whose revision is `R` while the step before had another revision.
`held` tells whether `R` already counts as current when the sequence starts. -/
def deployments (R : String) : Bool → List Step → Nat
  | _, [] => 0
  | held, s :: rest =>
    (if s.Status.Sync.Revision = R ∧ held = false then 1 else 0)
      + deployments R (decide (s.Status.Sync.Revision = R)) rest

/-! ## Concrete inputs used in examples -/

/-- The Application named `n` with the given health and sync status (and
nothing else set), for stating examples. -/
def exampleApp (health sync n : String) : Application :=
  { Namespace := "argocd", Name := n, Annotations := [],
    Spec := { Source := { RepoURL := "https://github.com/octocat/hello" } },
    Status := { Sync := { Status := sync, Revision := "rev1" }, Health := { Status := health } } }

/-- An environment holding the four configuration values and nothing else. -/
def exampleEnv (token appID installationID privateKey : String) : String → String :=
  fun name =>
    if name = "GITHUB_TOKEN" then token
    else if name = "GITHUB_APP_ID" then appID
    else if name = "GITHUB_APP_INSTALLATION_ID" then installationID
    else if name = "GITHUB_APP_PRIVATE_KEY" then privateKey
    else ""

/-- Request key of the example Application. -/
def exampleReq : NamespacedName := { Namespace := "argocd", Name := "myapp" }

/-- A store holding one Application, `argocd/myapp`, with the given
annotations, revision and repository URL, Degraded and OutOfSync. -/
def exampleCluster (annotations : Annotations) (revision url : String) : Cluster :=
  fun k =>
    if k = exampleReq then
      some { Annotations := annotations,
             Spec := { Source := { RepoURL := url } },
             Status := { Sync := { Status := "OutOfSync", Revision := revision },
                         Health := { Status := "Degraded" } } }
    else none

/-- A repository URL parser that accepts one URL. -/
def exampleParse : String → Except Err Repository :=
  fun url =>
    if url = "https://github.com/octocat/hello" then .ok { Owner := "octocat", Name := "hello" }
    else .error (.other "not a GitHub URL")

/-- Collaborators that all succeed. -/
def answersOk : Answers := { getFault := none, patchFault := none, AddComment := fun _ => none }

/-- Collaborators whose patch fails. -/
def answersPatchFails : Answers :=
  { getFault := none, patchFault := some (.other "conflict"), AddComment := fun _ => none }

/-- Collaborators whose send fails. -/
def answersSendFails : Answers :=
  { getFault := none, patchFault := none, AddComment := fun _ => some (.other "bad gateway") }

/-- A step deploying `revision` (Healthy, Synced, supported URL) with all
collaborators succeeding. -/
def exampleStep (revision : String) : Step :=
  { Spec := { Source := { RepoURL := "https://github.com/octocat/hello" } },
    Status := { Sync := { Status := "Synced", Revision := revision },
                Health := { Status := "Healthy" } },
    answers := answersOk }

/-- The Application a fetch from `exampleCluster` returns. -/
def exampleFetched (annotations : Annotations) (revision url : String) : Application :=
  { Namespace := "argocd", Name := "myapp", Annotations := annotations,
    Spec := { Source := { RepoURL := url } },
    Status := { Sync := { Status := "OutOfSync", Revision := revision },
                Health := { Status := "Degraded" } } }

/-! # Theorems -/

/-! ## The composer -/

/-- C8, as stated, fails: the composer never emits the emoji characters.  For
the Healthy application `myapp` the text is not "✅ Healthy: myapp", and for
the Degraded, OutOfSync application `myapp` it is not "⚠️ OutOfSync: myapp";
the code emits the shortcodes `:white_check_mark:` and `:warning:`. -/
theorem C8_emoji_counterexample :
    healthStatusCommentFor (exampleApp "Healthy" "Synced" "myapp") ≠ "✅ Healthy: myapp"
    ∧ healthStatusCommentFor (exampleApp "Healthy" "Synced" "myapp")
        = ":white_check_mark: Healthy: myapp"
    ∧ healthStatusCommentFor (exampleApp "Degraded" "OutOfSync" "myapp") ≠ "⚠️ OutOfSync: myapp"
    ∧ healthStatusCommentFor (exampleApp "Degraded" "OutOfSync" "myapp")
        = ":warning: OutOfSync: myapp" := by
  decide

/-- C8, amended: for every Application, health Healthy yields
":white_check_mark: Healthy: " followed by the name, and every other health
status yields ":warning: " followed by the sync status, ": " and the name. -/
theorem C8_composer_text (a : Application) :
    (a.Status.Health.Status = HealthStatusHealthy →
      healthStatusCommentFor a = ":white_check_mark: Healthy: " ++ a.Name)
    ∧ (a.Status.Health.Status ≠ HealthStatusHealthy →
      healthStatusCommentFor a = ":warning: " ++ a.Status.Sync.Status ++ ": " ++ a.Name) := by
  constructor
  · intro h
    simp [healthStatusCommentFor, h, HealthStatusHealthy, String.append_assoc]
  · intro h
    simp [healthStatusCommentFor, h]

/-- C8, amended, at the two applications of the spec's examples. -/
theorem C8_composer_text_witness :
    healthStatusCommentFor (exampleApp "Healthy" "Synced" "myapp")
        = ":white_check_mark: Healthy: myapp"
    ∧ healthStatusCommentFor (exampleApp "Degraded" "OutOfSync" "myapp")
        = ":warning: OutOfSync: myapp" :=
  ⟨(C8_composer_text (exampleApp "Healthy" "Synced" "myapp")).1 (by decide),
   (C8_composer_text (exampleApp "Degraded" "OutOfSync" "myapp")).2 (by decide)⟩

/-- C9: there are two distinct marker prefixes such that, for every
Application, a Healthy one gets the positive marker followed by
"<health-status>: <name>" and any other gets the warning marker followed by
"<sync-status>: <name>"; hence two Healthy applications with the same name get
the same text whatever their sync status, and two non-Healthy applications
with the same sync status and name get the same text whatever their health. -/
theorem C9_composer_asymmetry :
    ∃ positive warning : String, positive ≠ warning
      ∧ (∀ a : Application, a.Status.Health.Status = HealthStatusHealthy →
          healthStatusCommentFor a = positive ++ a.Status.Health.Status ++ ": " ++ a.Name)
      ∧ (∀ a : Application, a.Status.Health.Status ≠ HealthStatusHealthy →
          healthStatusCommentFor a = warning ++ a.Status.Sync.Status ++ ": " ++ a.Name)
      ∧ (∀ a b : Application, a.Status.Health.Status = HealthStatusHealthy →
          b.Status.Health.Status = HealthStatusHealthy → a.Name = b.Name →
          healthStatusCommentFor a = healthStatusCommentFor b)
      ∧ (∀ a b : Application, a.Status.Health.Status ≠ HealthStatusHealthy →
          b.Status.Health.Status ≠ HealthStatusHealthy →
          a.Status.Sync.Status = b.Status.Sync.Status → a.Name = b.Name →
          healthStatusCommentFor a = healthStatusCommentFor b) := by
  refine ⟨":white_check_mark: ", ":warning: ", by decide, ?_, ?_, ?_, ?_⟩
  · intro a h
    simp [healthStatusCommentFor, h]
  · intro a h
    simp [healthStatusCommentFor, h]
  · intro a b ha hb hn
    simp [healthStatusCommentFor, ha, hb, hn]
  · intro a b ha hb hs hn
    simp [healthStatusCommentFor, ha, hb, hs, hn]

/-- C9 at concrete applications: Healthy reports the health text, Degraded and
Progressing both report the sync text. -/
theorem C9_composer_asymmetry_witness :
    healthStatusCommentFor (exampleApp "Healthy" "OutOfSync" "myapp")
        = healthStatusCommentFor (exampleApp "Healthy" "Synced" "myapp")
    ∧ healthStatusCommentFor (exampleApp "Degraded" "OutOfSync" "myapp")
        = healthStatusCommentFor (exampleApp "Progressing" "OutOfSync" "myapp") := by
  obtain ⟨_, _, _, _, _, h3, h4⟩ := C9_composer_asymmetry
  exact ⟨h3 _ _ (by decide) (by decide) rfl, h4 _ _ (by decide) (by decide) rfl rfl⟩

/-! ## The event filter -/

/-- C4: the event filter admits an event exactly when it is an update whose
old and new objects are Applications with different health status and whose
new health status is Healthy or Degraded; it rejects every create, delete and
generic event, every update with equal old and new health, and every update
whose new health is neither Healthy nor Degraded. -/
theorem C4_filter_exact (p : applicationHealthStatusChangePredicate) :
    (∀ e : Event, p.admits e = true ↔
      ∃ applicationOld applicationNew : Application,
        e = .update { ObjectOld := .application applicationOld,
                      ObjectNew := .application applicationNew }
        ∧ applicationOld.Status.Health.Status ≠ applicationNew.Status.Health.Status
        ∧ (applicationNew.Status.Health.Status = "Healthy"
            ∨ applicationNew.Status.Health.Status = "Degraded"))
    ∧ (∀ e : CreateEvent, p.admits (.create e) = false)
    ∧ (∀ e : DeleteEvent, p.admits (.delete e) = false)
    ∧ (∀ e : GenericEvent, p.admits (.generic e) = false)
    ∧ (∀ applicationOld applicationNew : Application,
        applicationOld.Status.Health.Status = applicationNew.Status.Health.Status →
        p.admits (.update { ObjectOld := .application applicationOld,
                            ObjectNew := .application applicationNew }) = false)
    ∧ (∀ (objectOld : Object) (applicationNew : Application),
        applicationNew.Status.Health.Status ≠ "Healthy" →
        applicationNew.Status.Health.Status ≠ "Degraded" →
        p.admits (.update { ObjectOld := objectOld,
                            ObjectNew := .application applicationNew }) = false) := by
  refine ⟨?_, ?_, ?_, ?_, ?_, ?_⟩
  · intro e
    constructor
    · intro h
      cases e with
      | create e => simp [applicationHealthStatusChangePredicate.admits,
          applicationHealthStatusChangePredicate.Create] at h
      | delete e => simp [applicationHealthStatusChangePredicate.admits,
          applicationHealthStatusChangePredicate.Delete] at h
      | generic e => simp [applicationHealthStatusChangePredicate.admits,
          applicationHealthStatusChangePredicate.Generic] at h
      | update e =>
        obtain ⟨objectOld, objectNew⟩ := e
        cases objectOld with
        | other k => simp [applicationHealthStatusChangePredicate.admits,
            applicationHealthStatusChangePredicate.Update] at h
        | application applicationOld =>
          cases objectNew with
          | other k => simp [applicationHealthStatusChangePredicate.admits,
              applicationHealthStatusChangePredicate.Update] at h
          | application applicationNew =>
            simp only [applicationHealthStatusChangePredicate.admits,
              applicationHealthStatusChangePredicate.Update, HealthStatusHealthy,
              HealthStatusDegraded] at h
            refine ⟨applicationOld, applicationNew, rfl, ?_, ?_⟩
            · intro heq
              simp [heq] at h
            · by_contra hne
              simp [hne] at h
    · rintro ⟨applicationOld, applicationNew, rfl, hne, hset⟩
      simp [applicationHealthStatusChangePredicate.admits,
        applicationHealthStatusChangePredicate.Update, HealthStatusHealthy,
        HealthStatusDegraded, hne, hset]
  · intro e
    rfl
  · intro e
    rfl
  · intro e
    rfl
  · intro applicationOld applicationNew heq
    simp [applicationHealthStatusChangePredicate.admits,
      applicationHealthStatusChangePredicate.Update, heq]
  · intro objectOld applicationNew h1 h2
    cases objectOld with
    | other k => rfl
    | application applicationOld =>
      simp [applicationHealthStatusChangePredicate.admits,
        applicationHealthStatusChangePredicate.Update, HealthStatusHealthy,
        HealthStatusDegraded, h1, h2]

/-- C4 at concrete events: Progressing to Healthy and Healthy to Degraded are
admitted; Healthy to Healthy and Healthy to Progressing are not. -/
theorem C4_filter_exact_witness :
    applicationHealthStatusChangePredicate.admits {}
        (.update { ObjectOld := .application (exampleApp "Progressing" "Synced" "myapp"),
                   ObjectNew := .application (exampleApp "Healthy" "Synced" "myapp") }) = true
    ∧ applicationHealthStatusChangePredicate.admits {}
        (.update { ObjectOld := .application (exampleApp "Healthy" "Synced" "myapp"),
                   ObjectNew := .application (exampleApp "Degraded" "Synced" "myapp") }) = true
    ∧ applicationHealthStatusChangePredicate.admits {}
        (.update { ObjectOld := .application (exampleApp "Healthy" "Synced" "myapp"),
                   ObjectNew := .application (exampleApp "Healthy" "OutOfSync" "myapp") }) = false
    ∧ applicationHealthStatusChangePredicate.admits {}
        (.update { ObjectOld := .application (exampleApp "Healthy" "Synced" "myapp"),
                   ObjectNew := .application (exampleApp "Progressing" "Synced" "myapp") })
        = false :=
  ⟨((C4_filter_exact {}).1 _).2 ⟨_, _, rfl, by decide, by decide⟩,
   ((C4_filter_exact {}).1 _).2 ⟨_, _, rfl, by decide, by decide⟩,
   (C4_filter_exact {}).2.2.2.2.1 _ _ (by decide),
   (C4_filter_exact {}).2.2.2.2.2 _ _ (by decide) (by decide)⟩

/-! ## Client construction -/

/-- C10, as stated, fails: with the static token and the complete app
credential both set, `NewClient` returns a client (the static-token one)
although not exactly one of the two modes is configured. -/
theorem C10_both_modes_counterexample :
    NewClient (fun pem => Except.ok pem) (exampleEnv "ghp_token" "1" "2" "pem")
        = Except.ok (newClientWithPersonalAccessToken "ghp_token")
    ∧ tokenConfigured (exampleEnv "ghp_token" "1" "2" "pem")
    ∧ appConfigured (exampleEnv "ghp_token" "1" "2" "pem")
    ∧ ¬ Xor' (tokenConfigured (exampleEnv "ghp_token" "1" "2" "pem"))
          (appConfigured (exampleEnv "ghp_token" "1" "2" "pem")) := by
  refine ⟨?_, ?_, ?_, ?_⟩
  · simp [NewClient, exampleEnv]
  · decide
  · decide
  · decide

/-- C10, amended: `NewClient` returns an error when neither the static token
nor the complete app credential is set, so it returns a client only when at
least one of the two modes is set; whenever the static token is set it returns
the static-token client, also when the app credential is set as well. -/
theorem C10_credential_modes {Key : Type} (ParsePrivateKey : String → Except Err Key)
    (Getenv : String → String) :
    (¬ tokenConfigured Getenv → ¬ appConfigured Getenv →
      NewClient ParsePrivateKey Getenv
        = .error (.other "you need to set either GITHUB_TOKEN or GITHUB_APP_ID"))
    ∧ (∀ c : client Key, NewClient ParsePrivateKey Getenv = .ok c →
        tokenConfigured Getenv ∨ appConfigured Getenv)
    ∧ (tokenConfigured Getenv →
        NewClient ParsePrivateKey Getenv
          = .ok (newClientWithPersonalAccessToken (Getenv "GITHUB_TOKEN"))) := by
  refine ⟨?_, ?_, ?_⟩
  · intro ht ha
    simp only [tokenConfigured, appConfigured] at ht ha
    simp only [NewClient, if_neg ht, if_neg ha]
  · intro c hc
    by_cases ht : tokenConfigured Getenv
    · exact Or.inl ht
    · by_cases ha : appConfigured Getenv
      · exact Or.inr ha
      · simp only [tokenConfigured, appConfigured] at ht ha
        simp [NewClient, if_neg ht, if_neg ha] at hc
  · intro ht
    simp only [tokenConfigured] at ht
    simp only [NewClient, if_pos ht]

/-- C10, amended, at concrete environments: nothing set gives the error, the
token alone gives the static-token client. -/
theorem C10_credential_modes_witness :
    NewClient (fun pem => Except.ok pem) (exampleEnv "" "" "" "")
        = .error (.other "you need to set either GITHUB_TOKEN or GITHUB_APP_ID")
    ∧ NewClient (fun pem => Except.ok pem) (exampleEnv "ghp_token" "" "" "")
        = .ok (newClientWithPersonalAccessToken "ghp_token") :=
  ⟨(C10_credential_modes (fun pem => Except.ok pem) (exampleEnv "" "" "" "")).1
      (by decide) (by decide),
   (C10_credential_modes (fun pem => Except.ok pem) (exampleEnv "ghp_token" "" "" "")).2.2
      (by decide)⟩

/-! ## The reconciler -/

theorem Annotations.get_set_self (m : Annotations) (key value : String) :
    Annotations.get (Annotations.set m key value) key = some value := by
  simp [Annotations.set, Annotations.get]

theorem Annotations.get_filter_ne (m : Annotations) (key other : String) (h : other ≠ key) :
    Annotations.get (m.filter (fun kv => decide (kv.1 ≠ key))) other = Annotations.get m other := by
  induction m with
  | nil => rfl
  | cons kv rest ih =>
    obtain ⟨k, v⟩ := kv
    rw [List.filter_cons]
    by_cases hk : k = key
    · have hne : ¬ k = other := fun h2 => h (h2.symm.trans hk)
      have hd : decide ((k, v).1 ≠ key) = false := by simp [hk]
      rw [hd]
      simp only [Bool.false_eq_true, if_false, Annotations.get, if_neg hne]
      exact ih
    · have hd : decide ((k, v).1 ≠ key) = true := by simp [hk]
      rw [hd]
      simp only [if_true, Annotations.get]
      rw [ih]

theorem Annotations.get_set_other (m : Annotations) (key value other : String)
    (h : other ≠ key) :
    Annotations.get (Annotations.set m key value) other = Annotations.get m other := by
  have hne : ¬ key = other := fun h2 => h h2.symm
  simp only [Annotations.set, Annotations.get, if_neg hne]
  exact Annotations.get_filter_ne m key other h

/-- A successful fetch returns the object stored under the request key. -/
theorem Get_eq_ok {c : Cluster} {fault : Option Err} {req : NamespacedName} {a : Application}
    (h : Get c fault req = .ok a) :
    fault = none ∧ ∃ o, c req = some o
      ∧ a = { Namespace := req.Namespace, Name := req.Name, Annotations := o.Annotations,
              Spec := o.Spec, Status := o.Status } := by
  unfold Get at h
  cases fault with
  | some e => simp at h
  | none =>
    cases hc : c req with
    | none => simp [hc] at h
    | some o =>
      simp only [hc] at h
      refine ⟨rfl, o, rfl, ?_⟩
      injection h with h
      exact h.symm

theorem Get_key {c : Cluster} {fault : Option Err} {req : NamespacedName} {a : Application}
    (h : Get c fault req = .ok a) : a.key = req := by
  obtain ⟨_, o, _, rfl⟩ := Get_eq_ok h
  rfl

theorem Get_storedMarker {c : Cluster} {fault : Option Err} {req : NamespacedName}
    {a : Application} (h : Get c fault req = .ok a) :
    storedMarker c req = Annotations.get a.Annotations lastRevisionHealthy := by
  obtain ⟨_, o, hc, rfl⟩ := Get_eq_ok h
  simp [storedMarker, hc]

/-- A run whose fetch fails issues no call and leaves the store alone. -/
theorem Reconcile_get_error {ParseRepositoryURL : String → Except Err Repository} {w : Answers}
    {c : Cluster} {req : NamespacedName} {e : Err} (h : Get c w.getFault req = .error e) :
    Reconcile ParseRepositoryURL w c req
      = { result := {}, err := IgnoreNotFound e, calls := [], cluster := c } := by
  simp [Reconcile, h]

/-- A run that finds the marker equal to the revision stops at once. -/
theorem Reconcile_marker_eq {ParseRepositoryURL : String → Except Err Repository} {w : Answers}
    {c : Cluster} {req : NamespacedName} {a : Application}
    (hget : Get c w.getFault req = .ok a)
    (hmarker : Annotations.get a.Annotations lastRevisionHealthy = some a.Status.Sync.Revision) :
    Reconcile ParseRepositoryURL w c req
      = { result := {}, err := none, calls := [], cluster := c } := by
  simp [Reconcile, hget, hmarker]

/-- A run that finds no marker, or another revision in it, goes on to patch. -/
theorem Reconcile_marker_ne {ParseRepositoryURL : String → Except Err Repository} {w : Answers}
    {c : Cluster} {req : NamespacedName} {a : Application}
    (hget : Get c w.getFault req = .ok a)
    (hmarker : Annotations.get a.Annotations lastRevisionHealthy ≠ some a.Status.Sync.Revision) :
    Reconcile ParseRepositoryURL w c req = patchAndComment ParseRepositoryURL w c a := by
  simp only [Reconcile, hget]
  cases hm : Annotations.get a.Annotations lastRevisionHealthy with
  | none => rfl
  | some lastRevision =>
    have hne : lastRevision ≠ a.Status.Sync.Revision := by
      intro heq
      exact hmarker (by rw [hm, heq])
    simp [hne]

/-- A failed patch ends the run with that error, before any send. -/
theorem patchAndComment_patch_error {ParseRepositoryURL : String → Except Err Repository}
    {w : Answers} {c : Cluster} {a : Application} {e : Err} (hfault : w.patchFault = some e) :
    patchAndComment ParseRepositoryURL w c a
      = { result := {}, err := some e,
          calls := [.patch a (Annotations.set a.Annotations lastRevisionHealthy
                      a.Status.Sync.Revision)],
          cluster := c } := by
  simp [patchAndComment, patchAnnotation, hfault]

/-- A successful patch followed by an unsupported URL ends the run without error. -/
theorem patchAndComment_parse_error {ParseRepositoryURL : String → Except Err Repository}
    {w : Answers} {c : Cluster} {a : Application} {o : StoredApplication} {e : Err}
    (hstored : c a.key = some o) (hfault : w.patchFault = none)
    (hparse : ParseRepositoryURL a.Spec.Source.RepoURL = .error e) :
    (patchAndComment ParseRepositoryURL w c a).calls
        = [.patch a (Annotations.set a.Annotations lastRevisionHealthy a.Status.Sync.Revision)]
    ∧ (patchAndComment ParseRepositoryURL w c a).err = none
    ∧ (patchAndComment ParseRepositoryURL w c a).result = {}
    ∧ storedMarker (patchAndComment ParseRepositoryURL w c a).cluster a.key
        = some a.Status.Sync.Revision := by
  simp [patchAndComment, patchAnnotation, hfault, hstored, hparse, storedMarker,
    Annotations.get_set_self]

/-- A successful patch followed by a supported URL ends in one send, whatever
the transport answers. -/
theorem patchAndComment_send {ParseRepositoryURL : String → Except Err Repository}
    {w : Answers} {c : Cluster} {a : Application} {o : StoredApplication}
    {repository : Repository}
    (hstored : c a.key = some o) (hfault : w.patchFault = none)
    (hparse : ParseRepositoryURL a.Spec.Source.RepoURL = .ok repository) :
    (patchAndComment ParseRepositoryURL w c a).calls
        = [.patch a (Annotations.set a.Annotations lastRevisionHealthy a.Status.Sync.Revision),
           .addComment { Repository := repository, CommitSHA := a.Status.Sync.Revision,
                         Body := healthStatusCommentFor a }]
    ∧ (patchAndComment ParseRepositoryURL w c a).err = none
    ∧ (patchAndComment ParseRepositoryURL w c a).result = {}
    ∧ storedMarker (patchAndComment ParseRepositoryURL w c a).cluster a.key
        = some a.Status.Sync.Revision := by
  simp only [patchAndComment, patchAnnotation, hfault, hstored, hparse]
  cases w.AddComment { Repository := repository, CommitSHA := a.Status.Sync.Revision,
                       Body := healthStatusCommentFor a } <;>
    simp [storedMarker, Annotations.get_set_self]

/-- Every run of `Reconcile` has one of four shapes: it issues nothing and
leaves the store alone; it issues one patch that fails; it issues one patch
that succeeds and stops at the repository URL; or it issues one successful
patch followed by one send. -/
theorem Reconcile_cases (ParseRepositoryURL : String → Except Err Repository) (w : Answers)
    (c : Cluster) (req : NamespacedName) :
    ((Reconcile ParseRepositoryURL w c req).calls = []
      ∧ (Reconcile ParseRepositoryURL w c req).cluster = c)
    ∨ (∃ a e, Get c w.getFault req = .ok a
        ∧ Annotations.get a.Annotations lastRevisionHealthy ≠ some a.Status.Sync.Revision
        ∧ w.patchFault = some e
        ∧ (Reconcile ParseRepositoryURL w c req).calls
            = [.patch a (Annotations.set a.Annotations lastRevisionHealthy
                  a.Status.Sync.Revision)]
        ∧ (Reconcile ParseRepositoryURL w c req).err = some e
        ∧ (Reconcile ParseRepositoryURL w c req).cluster = c)
    ∨ (∃ a e, Get c w.getFault req = .ok a
        ∧ Annotations.get a.Annotations lastRevisionHealthy ≠ some a.Status.Sync.Revision
        ∧ w.patchFault = none
        ∧ ParseRepositoryURL a.Spec.Source.RepoURL = .error e
        ∧ (Reconcile ParseRepositoryURL w c req).calls
            = [.patch a (Annotations.set a.Annotations lastRevisionHealthy
                  a.Status.Sync.Revision)]
        ∧ (Reconcile ParseRepositoryURL w c req).err = none
        ∧ storedMarker (Reconcile ParseRepositoryURL w c req).cluster req
            = some a.Status.Sync.Revision)
    ∨ (∃ a repository, Get c w.getFault req = .ok a
        ∧ Annotations.get a.Annotations lastRevisionHealthy ≠ some a.Status.Sync.Revision
        ∧ w.patchFault = none
        ∧ ParseRepositoryURL a.Spec.Source.RepoURL = .ok repository
        ∧ (Reconcile ParseRepositoryURL w c req).calls
            = [.patch a (Annotations.set a.Annotations lastRevisionHealthy
                  a.Status.Sync.Revision),
               .addComment { Repository := repository, CommitSHA := a.Status.Sync.Revision,
                             Body := healthStatusCommentFor a }]
        ∧ (Reconcile ParseRepositoryURL w c req).err = none
        ∧ (Reconcile ParseRepositoryURL w c req).result = {}
        ∧ storedMarker (Reconcile ParseRepositoryURL w c req).cluster req
            = some a.Status.Sync.Revision) := by
  cases hget : Get c w.getFault req with
  | error e =>
    left
    rw [Reconcile_get_error hget]
    exact ⟨rfl, rfl⟩
  | ok a =>
    by_cases hmarker :
        Annotations.get a.Annotations lastRevisionHealthy = some a.Status.Sync.Revision
    · left
      rw [Reconcile_marker_eq hget hmarker]
      exact ⟨rfl, rfl⟩
    · right
      rw [Reconcile_marker_ne hget hmarker]
      obtain ⟨_, o, hc, _⟩ := Get_eq_ok hget
      have hkey : a.key = req := Get_key hget
      rw [← hkey] at hc
      cases hfault : w.patchFault with
      | some e =>
        left
        rw [patchAndComment_patch_error hfault]
        exact ⟨a, e, rfl, hmarker, rfl, rfl, rfl, rfl⟩
      | none =>
        right
        cases hparse : ParseRepositoryURL a.Spec.Source.RepoURL with
        | error e =>
          left
          obtain ⟨h1, h2, _, h4⟩ := patchAndComment_parse_error hc hfault hparse
          rw [hkey] at h4
          exact ⟨a, e, rfl, hmarker, rfl, hparse, h1, h2, h4⟩
        | ok repository =>
          right
          obtain ⟨h1, h2, h3, h4⟩ := patchAndComment_send hc hfault hparse
          rw [hkey] at h4
          exact ⟨a, repository, rfl, hmarker, rfl, hparse, h1, h2, h3, h4⟩

/-- A successful patch leaves the stored revision as it was. -/
theorem patchAndComment_storedRevision {ParseRepositoryURL : String → Except Err Repository}
    {w : Answers} {c : Cluster} {a : Application} {o : StoredApplication}
    (hstored : c a.key = some o) :
    storedRevision (patchAndComment ParseRepositoryURL w c a).cluster a.key
      = some o.Status.Sync.Revision := by
  cases hfault : w.patchFault with
  | some e => simp [patchAndComment, patchAnnotation, hfault, storedRevision, hstored]
  | none =>
    cases hparse : ParseRepositoryURL a.Spec.Source.RepoURL with
    | error e => simp [patchAndComment, patchAnnotation, hfault, hstored, hparse, storedRevision]
    | ok repository =>
      cases hsend : w.AddComment { Repository := repository,
                                   CommitSHA := a.Status.Sync.Revision,
                                   Body := healthStatusCommentFor a } <;>
        simp [patchAndComment, patchAnnotation, hfault, hstored, hparse, hsend, storedRevision]

/-- A run on a store whose marker equals the stored revision issues nothing,
changes nothing, and reports no error unless the fetch itself fails. -/
theorem Reconcile_stored_marker_eq (ParseRepositoryURL : String → Except Err Repository)
    (w : Answers) (c : Cluster) (req : NamespacedName) (R : String)
    (hmarker : storedMarker c req = some R) (hrev : storedRevision c req = some R) :
    (Reconcile ParseRepositoryURL w c req).calls = []
    ∧ (Reconcile ParseRepositoryURL w c req).cluster = c
    ∧ (w.getFault = none → (Reconcile ParseRepositoryURL w c req).err = none) := by
  cases hget : Get c w.getFault req with
  | error e =>
    rw [Reconcile_get_error hget]
    refine ⟨rfl, rfl, ?_⟩
    intro hfault
    cases hc : c req with
    | none => simp [storedMarker, hc] at hmarker
    | some o => simp [Get, hfault, hc] at hget
  | ok a =>
    have hm := Get_storedMarker hget
    obtain ⟨_, o, hc, ha⟩ := Get_eq_ok hget
    have hr : a.Status.Sync.Revision = R := by
      simp only [storedRevision, hc, Option.some.injEq] at hrev
      rw [ha]
      exact hrev
    rw [Reconcile_marker_eq hget (by rw [← hm, hmarker, hr])]
    exact ⟨rfl, rfl, fun _ => rfl⟩

/-! ### Single runs -/

/-- C1: when the fetched Application carries the dedup marker with a value
equal to its current revision, `Reconcile` issues no call, returns no error and
an empty result, and leaves the store alone; in particular, after a run that
patched the marker successfully, running `Reconcile` again on the store that
run left (revision unchanged) issues no call, changes nothing, and returns no
error when its fetch succeeds. -/
theorem C1_marker_equal_is_noop (ParseRepositoryURL : String → Except Err Repository) :
    (∀ (w : Answers) (c : Cluster) (req : NamespacedName) (a : Application),
      Get c w.getFault req = .ok a →
      Annotations.get a.Annotations lastRevisionHealthy = some a.Status.Sync.Revision →
      (Reconcile ParseRepositoryURL w c req).calls = []
      ∧ (Reconcile ParseRepositoryURL w c req).err = none
      ∧ (Reconcile ParseRepositoryURL w c req).result = {}
      ∧ (Reconcile ParseRepositoryURL w c req).cluster = c)
    ∧ (∀ (w again : Answers) (c : Cluster) (req : NamespacedName) (a : Application),
      Get c w.getFault req = .ok a →
      Annotations.get a.Annotations lastRevisionHealthy ≠ some a.Status.Sync.Revision →
      w.patchFault = none →
      (Reconcile ParseRepositoryURL again
          (Reconcile ParseRepositoryURL w c req).cluster req).calls = []
      ∧ (Reconcile ParseRepositoryURL again
          (Reconcile ParseRepositoryURL w c req).cluster req).cluster
          = (Reconcile ParseRepositoryURL w c req).cluster
      ∧ (again.getFault = none →
          (Reconcile ParseRepositoryURL again
            (Reconcile ParseRepositoryURL w c req).cluster req).err = none)) := by
  constructor
  · intro w c req a hget hmarker
    rw [Reconcile_marker_eq hget hmarker]
    exact ⟨rfl, rfl, rfl, rfl⟩
  · intro w again c req a hget hmarker hfault
    obtain ⟨_, o, hc, ha⟩ := Get_eq_ok hget
    have hkey : a.key = req := Get_key hget
    have hrevA : o.Status.Sync.Revision = a.Status.Sync.Revision := by rw [ha]
    have hrev : storedRevision (Reconcile ParseRepositoryURL w c req).cluster req
        = some a.Status.Sync.Revision := by
      rw [Reconcile_marker_ne hget hmarker, ← hrevA]
      have h : storedRevision (patchAndComment ParseRepositoryURL w c a).cluster a.key
          = some o.Status.Sync.Revision :=
        patchAndComment_storedRevision (hkey ▸ hc : c a.key = some o)
      rw [hkey] at h
      exact h
    have hmark : storedMarker (Reconcile ParseRepositoryURL w c req).cluster req
        = some a.Status.Sync.Revision := by
      rcases Reconcile_cases ParseRepositoryURL w c req with h | h | h | h
      · rw [Reconcile_marker_ne hget hmarker] at h
        have hcalls := h.1
        cases hp : ParseRepositoryURL a.Spec.Source.RepoURL with
        | error e =>
          rw [(patchAndComment_parse_error (hkey ▸ hc : c a.key = some o) hfault hp).1] at hcalls
          simp at hcalls
        | ok repository =>
          rw [(patchAndComment_send (hkey ▸ hc : c a.key = some o) hfault hp).1] at hcalls
          simp at hcalls
      · obtain ⟨_, e, _, _, hf, _⟩ := h
        rw [hfault] at hf
        simp at hf
      · obtain ⟨b, e, hb, _, _, _, _, _, hm⟩ := h
        rw [hget] at hb
        injection hb with hb
        rw [hb]
        exact hm
      · obtain ⟨b, r, hb, _, _, _, _, _, _, hm⟩ := h
        rw [hget] at hb
        injection hb with hb
        rw [hb]
        exact hm
    exact Reconcile_stored_marker_eq ParseRepositoryURL again _ req _ hmark hrev

/-- C1 at a concrete store: marker and revision both "rev1" gives no call and
no error; and after a first run that patched the marker from "rev1" to "rev2",
the second run gives no call and no error. -/
theorem C1_marker_equal_is_noop_witness :
    ((Reconcile exampleParse answersOk
        (exampleCluster [(lastRevisionHealthy, "rev1")] "rev1" "https://github.com/octocat/hello")
        exampleReq).calls = []
      ∧ (Reconcile exampleParse answersOk
        (exampleCluster [(lastRevisionHealthy, "rev1")] "rev1" "https://github.com/octocat/hello")
        exampleReq).err = none)
    ∧ ((Reconcile exampleParse answersOk
        (Reconcile exampleParse answersOk
          (exampleCluster [(lastRevisionHealthy, "rev1")] "rev2"
            "https://github.com/octocat/hello") exampleReq).cluster exampleReq).calls = []
      ∧ (Reconcile exampleParse answersOk
        (Reconcile exampleParse answersOk
          (exampleCluster [(lastRevisionHealthy, "rev1")] "rev2"
            "https://github.com/octocat/hello") exampleReq).cluster exampleReq).err = none) := by
  constructor
  · have h := (C1_marker_equal_is_noop exampleParse).1 answersOk
      (exampleCluster [(lastRevisionHealthy, "rev1")] "rev1" "https://github.com/octocat/hello")
      exampleReq
      (exampleFetched [(lastRevisionHealthy, "rev1")] "rev1" "https://github.com/octocat/hello")
      rfl (by decide)
    exact ⟨h.1, h.2.1⟩
  · have h := (C1_marker_equal_is_noop exampleParse).2 answersOk answersOk
      (exampleCluster [(lastRevisionHealthy, "rev1")] "rev2" "https://github.com/octocat/hello")
      exampleReq
      (exampleFetched [(lastRevisionHealthy, "rev1")] "rev2" "https://github.com/octocat/hello")
      rfl (by decide) rfl
    exact ⟨h.1, h.2.2 rfl⟩

/-- C2: when the fetched Application has no marker or a marker different from
its current revision, its repository URL parses and the patch succeeds,
`Reconcile` issues exactly one patch, which sets the marker to the current
revision, followed by exactly one send whose commit is the current revision,
whose repository is the parsed one and whose body is the composer's text for
the fetched Application; it returns no error, and the store then holds the
current revision as marker. -/
theorem C2_patch_then_send (ParseRepositoryURL : String → Except Err Repository)
    (w : Answers) (c : Cluster) (req : NamespacedName) (a : Application)
    (repository : Repository)
    (hget : Get c w.getFault req = .ok a)
    (hmarker : Annotations.get a.Annotations lastRevisionHealthy ≠ some a.Status.Sync.Revision)
    (hparse : ParseRepositoryURL a.Spec.Source.RepoURL = .ok repository)
    (hpatch : w.patchFault = none) :
    (Reconcile ParseRepositoryURL w c req).calls
        = [.patch a (Annotations.set a.Annotations lastRevisionHealthy a.Status.Sync.Revision),
           .addComment { Repository := repository, CommitSHA := a.Status.Sync.Revision,
                         Body := healthStatusCommentFor a }]
    ∧ Annotations.get
        (Annotations.set a.Annotations lastRevisionHealthy a.Status.Sync.Revision)
        lastRevisionHealthy = some a.Status.Sync.Revision
    ∧ (Reconcile ParseRepositoryURL w c req).err = none
    ∧ (Reconcile ParseRepositoryURL w c req).result = {}
    ∧ storedMarker (Reconcile ParseRepositoryURL w c req).cluster req
        = some a.Status.Sync.Revision := by
  obtain ⟨_, o, hc, _⟩ := Get_eq_ok hget
  have hkey : a.key = req := Get_key hget
  rw [← hkey] at hc
  obtain ⟨h1, h2, h3, h4⟩ := patchAndComment_send (w := w) hc hpatch hparse
  rw [Reconcile_marker_ne hget hmarker]
  rw [hkey] at h4
  exact ⟨h1, Annotations.get_set_self _ _ _, h2, h3, h4⟩

/-- C2 at marker "rev1", revision "rev2": one patch to "rev2", then one send
for commit "rev2". -/
theorem C2_patch_then_send_witness :
    (Reconcile exampleParse answersOk
        (exampleCluster [(lastRevisionHealthy, "rev1")] "rev2" "https://github.com/octocat/hello")
        exampleReq).calls
      = [.patch
            (exampleFetched [(lastRevisionHealthy, "rev1")] "rev2"
              "https://github.com/octocat/hello")
            [(lastRevisionHealthy, "rev2")],
         .addComment { Repository := { Owner := "octocat", Name := "hello" },
                       CommitSHA := "rev2", Body := ":warning: OutOfSync: myapp" }]
    ∧ (Reconcile exampleParse answersOk
        (exampleCluster [(lastRevisionHealthy, "rev1")] "rev2" "https://github.com/octocat/hello")
        exampleReq).err = none :=
  have h := C2_patch_then_send exampleParse answersOk
    (exampleCluster [(lastRevisionHealthy, "rev1")] "rev2" "https://github.com/octocat/hello")
    exampleReq
    (exampleFetched [(lastRevisionHealthy, "rev1")] "rev2" "https://github.com/octocat/hello")
    { Owner := "octocat", Name := "hello" } rfl (by decide) rfl rfl
  ⟨h.1, h.2.2.1⟩

/-- C5: when a run reaches the marker patch (marker absent or different from
the current revision) and the patch fails, `Reconcile` returns that error,
issues no send and leaves the store alone; and in every run, a send call
occurs only as the second call, right after a patch that set the marker to the
send's commit and succeeded, so that the store holds that commit as marker. -/
theorem C5_patch_failure_stops (ParseRepositoryURL : String → Except Err Repository) :
    (∀ (w : Answers) (c : Cluster) (req : NamespacedName) (a : Application) (e : Err),
      Get c w.getFault req = .ok a →
      Annotations.get a.Annotations lastRevisionHealthy ≠ some a.Status.Sync.Revision →
      w.patchFault = some e →
      (Reconcile ParseRepositoryURL w c req).err = some e
      ∧ (Reconcile ParseRepositoryURL w c req).calls
          = [.patch a (Annotations.set a.Annotations lastRevisionHealthy
                a.Status.Sync.Revision)]
      ∧ (∀ call ∈ (Reconcile ParseRepositoryURL w c req).calls, call.isSend = false)
      ∧ (Reconcile ParseRepositoryURL w c req).cluster = c)
    ∧ (∀ (w : Answers) (c : Cluster) (req : NamespacedName) (comment : Comment),
      Call.addComment comment ∈ (Reconcile ParseRepositoryURL w c req).calls →
      w.patchFault = none
      ∧ ∃ a : Application, Get c w.getFault req = .ok a
        ∧ comment.CommitSHA = a.Status.Sync.Revision
        ∧ (Reconcile ParseRepositoryURL w c req).calls
            = [.patch a (Annotations.set a.Annotations lastRevisionHealthy
                  a.Status.Sync.Revision), .addComment comment]
        ∧ storedMarker (Reconcile ParseRepositoryURL w c req).cluster req
            = some comment.CommitSHA) := by
  constructor
  · intro w c req a e hget hmarker hfault
    rw [Reconcile_marker_ne hget hmarker, patchAndComment_patch_error hfault]
    refine ⟨rfl, rfl, ?_, rfl⟩
    intro call hcall
    simp only [List.mem_singleton] at hcall
    rw [hcall]
    rfl
  · intro w c req comment hmem
    rcases Reconcile_cases ParseRepositoryURL w c req with h | h | h | h
    · rw [h.1] at hmem
      simp at hmem
    · obtain ⟨a, e, _, _, _, hcalls, _⟩ := h
      rw [hcalls] at hmem
      simp at hmem
    · obtain ⟨a, e, _, _, _, _, hcalls, _⟩ := h
      rw [hcalls] at hmem
      simp at hmem
    · obtain ⟨a, repository, hget, _, hfault, _, hcalls, _, _, hm⟩ := h
      rw [hcalls] at hmem
      simp only [List.mem_cons, List.mem_singleton, Call.addComment.injEq, List.not_mem_nil,
        or_false, false_or] at hmem
      simp only [reduceCtorEq, false_or] at hmem
      subst hmem
      exact ⟨hfault, a, hget, rfl, hcalls, hm⟩

/-- C5 at a concrete store whose patch fails with "conflict": the run returns
that error and its only call is the patch. -/
theorem C5_patch_failure_stops_witness :
    (Reconcile exampleParse answersPatchFails
        (exampleCluster [] "rev1" "https://github.com/octocat/hello") exampleReq).err
      = some (.other "conflict")
    ∧ (Reconcile exampleParse answersPatchFails
        (exampleCluster [] "rev1" "https://github.com/octocat/hello") exampleReq).calls
      = [.patch (exampleFetched [] "rev1" "https://github.com/octocat/hello")
          [(lastRevisionHealthy, "rev1")]]
    ∧ answersOk.patchFault = none := by
  have h := (C5_patch_failure_stops exampleParse).1 answersPatchFails
    (exampleCluster [] "rev1" "https://github.com/octocat/hello") exampleReq
    (exampleFetched [] "rev1" "https://github.com/octocat/hello") (.other "conflict")
    rfl (by decide) rfl
  have h2 := (C5_patch_failure_stops exampleParse).2 answersOk
    (exampleCluster [] "rev1" "https://github.com/octocat/hello") exampleReq
    { Repository := { Owner := "octocat", Name := "hello" }, CommitSHA := "rev1",
      Body := ":warning: OutOfSync: myapp" } (by decide)
  exact ⟨h.1, h.2.1, h2.1⟩

/-- C6, as stated, fails: with no marker, an unsupported repository URL and a
patch that fails with "conflict", `Reconcile` returns that error and the store
still has no marker. -/
theorem C6_patch_failure_counterexample :
    Annotations.get (exampleFetched [] "rev1" "https://gitlab.com/octocat/hello").Annotations
        lastRevisionHealthy = none
    ∧ exampleParse (exampleFetched [] "rev1" "https://gitlab.com/octocat/hello").Spec.Source.RepoURL
        = .error (.other "not a GitHub URL")
    ∧ Get (exampleCluster [] "rev1" "https://gitlab.com/octocat/hello")
        answersPatchFails.getFault exampleReq
        = .ok (exampleFetched [] "rev1" "https://gitlab.com/octocat/hello")
    ∧ (Reconcile exampleParse answersPatchFails
        (exampleCluster [] "rev1" "https://gitlab.com/octocat/hello") exampleReq).err
        = some (.other "conflict")
    ∧ storedMarker (Reconcile exampleParse answersPatchFails
        (exampleCluster [] "rev1" "https://gitlab.com/octocat/hello") exampleReq).cluster
        exampleReq = none := by
  refine ⟨by decide, rfl, rfl, by decide, by decide⟩

/-- C6, amended: when the fetched Application has no marker or a marker
different from its current revision and its repository URL does not parse,
`Reconcile` issues exactly one call, the patch setting the marker to the current
revision, and no send; when that patch succeeds the store holds the current
revision as marker and `Reconcile` returns no error. -/
theorem C6_unsupported_url (ParseRepositoryURL : String → Except Err Repository)
    (w : Answers) (c : Cluster) (req : NamespacedName) (a : Application) (e : Err)
    (hget : Get c w.getFault req = .ok a)
    (hmarker : Annotations.get a.Annotations lastRevisionHealthy ≠ some a.Status.Sync.Revision)
    (hparse : ParseRepositoryURL a.Spec.Source.RepoURL = .error e) :
    (Reconcile ParseRepositoryURL w c req).calls
        = [.patch a (Annotations.set a.Annotations lastRevisionHealthy a.Status.Sync.Revision)]
    ∧ Annotations.get
        (Annotations.set a.Annotations lastRevisionHealthy a.Status.Sync.Revision)
        lastRevisionHealthy = some a.Status.Sync.Revision
    ∧ (∀ call ∈ (Reconcile ParseRepositoryURL w c req).calls, call.isSend = false)
    ∧ (w.patchFault = none →
        (Reconcile ParseRepositoryURL w c req).err = none
        ∧ (Reconcile ParseRepositoryURL w c req).result = {}
        ∧ storedMarker (Reconcile ParseRepositoryURL w c req).cluster req
            = some a.Status.Sync.Revision) := by
  obtain ⟨_, o, hc, _⟩ := Get_eq_ok hget
  have hkey : a.key = req := Get_key hget
  rw [← hkey] at hc
  rw [Reconcile_marker_ne hget hmarker]
  have hcalls : (patchAndComment ParseRepositoryURL w c a).calls
      = [.patch a (Annotations.set a.Annotations lastRevisionHealthy
            a.Status.Sync.Revision)] := by
    cases hfault : w.patchFault with
    | some e2 => rw [patchAndComment_patch_error hfault]
    | none => exact (patchAndComment_parse_error hc hfault hparse).1
  refine ⟨hcalls, Annotations.get_set_self _ _ _, ?_, ?_⟩
  · intro call hcall
    rw [hcalls, List.mem_singleton] at hcall
    rw [hcall]
    rfl
  · intro hfault
    obtain ⟨_, h2, h3, h4⟩ := patchAndComment_parse_error hc hfault hparse
    rw [hkey] at h4
    exact ⟨h2, h3, h4⟩

/-- C6, amended, at a concrete store with an unsupported URL and a working
patch: one patch call, no error, marker recorded. -/
theorem C6_unsupported_url_witness :
    (Reconcile exampleParse answersOk
        (exampleCluster [] "rev1" "https://gitlab.com/octocat/hello") exampleReq).calls
      = [.patch (exampleFetched [] "rev1" "https://gitlab.com/octocat/hello")
          [(lastRevisionHealthy, "rev1")]]
    ∧ (Reconcile exampleParse answersOk
        (exampleCluster [] "rev1" "https://gitlab.com/octocat/hello") exampleReq).err = none
    ∧ storedMarker (Reconcile exampleParse answersOk
        (exampleCluster [] "rev1" "https://gitlab.com/octocat/hello") exampleReq).cluster
        exampleReq = some "rev1" := by
  have h := C6_unsupported_url exampleParse answersOk
    (exampleCluster [] "rev1" "https://gitlab.com/octocat/hello") exampleReq
    (exampleFetched [] "rev1" "https://gitlab.com/octocat/hello") (.other "not a GitHub URL")
    rfl (by decide) rfl
  exact ⟨h.1, (h.2.2.2 rfl).1, (h.2.2.2 rfl).2.2⟩

/-- C7: in every run whose send call fails, `Reconcile` returns no error and
an empty result (no requeue); the send is the last call, so no patch undoes
the marker, and the store holds the commit of the failed send as marker. -/
theorem C7_send_failure_swallowed (ParseRepositoryURL : String → Except Err Repository)
    (w : Answers) (c : Cluster) (req : NamespacedName) (comment : Comment) (e : Err)
    (hsent : Call.addComment comment ∈ (Reconcile ParseRepositoryURL w c req).calls)
    (hfail : w.AddComment comment = some e) :
    (Reconcile ParseRepositoryURL w c req).err = none
    ∧ (Reconcile ParseRepositoryURL w c req).result = {}
    ∧ (Reconcile ParseRepositoryURL w c req).result.Requeue = false
    ∧ (∃ a : Application, Get c w.getFault req = .ok a
        ∧ comment.CommitSHA = a.Status.Sync.Revision
        ∧ (Reconcile ParseRepositoryURL w c req).calls
            = [.patch a (Annotations.set a.Annotations lastRevisionHealthy
                  a.Status.Sync.Revision), .addComment comment])
    ∧ storedMarker (Reconcile ParseRepositoryURL w c req).cluster req
        = some comment.CommitSHA := by
  rcases Reconcile_cases ParseRepositoryURL w c req with h | h | h | h
  · rw [h.1] at hsent
    simp at hsent
  · obtain ⟨a, e2, _, _, _, hcalls, _⟩ := h
    rw [hcalls] at hsent
    simp at hsent
  · obtain ⟨a, e2, _, _, _, _, hcalls, _⟩ := h
    rw [hcalls] at hsent
    simp at hsent
  · obtain ⟨a, repository, hget, _, _, _, hcalls, herr, hres, hm⟩ := h
    rw [hcalls] at hsent
    simp only [List.mem_cons, List.mem_singleton, Call.addComment.injEq, List.not_mem_nil,
      or_false, false_or] at hsent
    simp only [reduceCtorEq, false_or] at hsent
    subst hsent
    refine ⟨herr, hres, ?_, ⟨a, hget, rfl, hcalls⟩, hm⟩
    rw [hres]

/-- C7 at a concrete store whose transport answers "bad gateway": no error is
returned and the marker stays at the revision. -/
theorem C7_send_failure_swallowed_witness :
    (Reconcile exampleParse answersSendFails
        (exampleCluster [] "rev1" "https://github.com/octocat/hello") exampleReq).err = none
    ∧ (Reconcile exampleParse answersSendFails
        (exampleCluster [] "rev1" "https://github.com/octocat/hello") exampleReq).result = {}
    ∧ storedMarker (Reconcile exampleParse answersSendFails
        (exampleCluster [] "rev1" "https://github.com/octocat/hello") exampleReq).cluster
        exampleReq = some "rev1" := by
  have h := C7_send_failure_swallowed exampleParse answersSendFails
    (exampleCluster [] "rev1" "https://github.com/octocat/hello") exampleReq
    { Repository := { Owner := "octocat", Name := "hello" }, CommitSHA := "rev1",
      Body := ":warning: OutOfSync: myapp" } (.other "bad gateway") (by decide) rfl
  exact ⟨h.1, h.2.1, h.2.2.2.2⟩

/-! ### Sequences of runs -/

theorem deployments_held_le (R : String) (held : Bool) (steps : List Step) :
    deployments R true steps ≤ deployments R held steps := by
  cases steps with
  | nil => simp [deployments]
  | cons s rest =>
    cases held <;> simp [deployments]

theorem deployments_le_succ (R : String) (held : Bool) (steps : List Step) :
    deployments R held steps ≤ 1 + deployments R true steps := by
  cases steps with
  | nil => simp [deployments]
  | cons s rest =>
    cases held
    · simp only [deployments]
      split <;> split <;> omega
    · omega

/-- Passing a step whose revision is `R` or not, without any send for `R`,
keeps the count of sends within the count of deployments. -/
theorem deployments_step_le (R : String) (held b : Bool) (rest : List Step) :
    deployments R held rest
      ≤ (if b = true ∧ held = false then 1 else 0) + deployments R b rest := by
  cases held
  · cases b
    · simp
    · simpa using deployments_le_succ R false rest
  · have h := deployments_held_le R b rest
    simpa using h

theorem storedMarker_deploy (c : Cluster) (req : NamespacedName) (spec : ApplicationSpec)
    (status : ApplicationStatus) :
    storedMarker (deploy c req spec status) req = storedMarker c req := by
  simp only [storedMarker, deploy, if_true]
  cases c req <;> rfl

theorem Get_deploy {c : Cluster} {req : NamespacedName} {spec : ApplicationSpec}
    {status : ApplicationStatus} {fault : Option Err} {a : Application}
    (h : Get (deploy c req spec status) fault req = .ok a) :
    a.Status = status
    ∧ Annotations.get a.Annotations lastRevisionHealthy = storedMarker c req := by
  have hm := Get_storedMarker h
  rw [storedMarker_deploy] at hm
  obtain ⟨_, o, hc, ha⟩ := Get_eq_ok h
  refine ⟨?_, hm.symm⟩
  simp only [deploy, if_true] at hc
  cases hcr : c req with
  | none => simp [hcr] at hc
  | some o2 =>
    simp only [hcr, Option.some.injEq] at hc
    rw [ha, ← hc]

/-- C3, as stated, fails: deploying "rev1", then "rev2", then "rev1" again,
with every patch and send succeeding, sends two comments for commit "rev1";
the marker holds only the last revision. -/
theorem C3_redeployed_revision_counterexample :
    sendsFor "rev1"
        (runs exampleParse exampleReq
          (exampleCluster [] "rev0" "https://github.com/octocat/hello")
          [exampleStep "rev1", exampleStep "rev2", exampleStep "rev1"]) = 2
    ∧ ¬ sendsFor "rev1"
        (runs exampleParse exampleReq
          (exampleCluster [] "rev0" "https://github.com/octocat/hello")
          [exampleStep "rev1", exampleStep "rev2", exampleStep "rev1"]) ≤ 1
    ∧ deployments "rev1" false
        [exampleStep "rev1", exampleStep "rev2", exampleStep "rev1"] = 2 := by
  decide

/-- C3, amended: along every sequence of runs of `Reconcile` on one
Application, the store applying each successful marker patch and the deployed
revision free to change between runs, the number of sends with commit `R` is
at most the number of times `R` becomes the deployed revision (the runs with
revision `R` that follow a run with another revision; the first run counts
unless the store already holds `R` as marker). -/
theorem C3_sends_bounded_by_deployments (ParseRepositoryURL : String → Except Err Repository)
    (req : NamespacedName) (R : String) (steps : List Step) (c : Cluster) :
    sendsFor R (runs ParseRepositoryURL req c steps)
      ≤ deployments R (decide (storedMarker c req = some R)) steps := by
  induction steps generalizing c with
  | nil => simp [runs, sendsFor]
  | cons s rest ih =>
    have hih := ih (Reconcile ParseRepositoryURL s.answers
      (deploy c req s.Spec s.Status) req).cluster
    simp only [runs, sendsFor, List.countP_append, deployments] at hih ⊢
    rcases Reconcile_cases ParseRepositoryURL s.answers (deploy c req s.Spec s.Status) req
      with h | h | h | h
    · obtain ⟨hcalls, hcl⟩ := h
      rw [hcl, storedMarker_deploy] at hih
      rw [hcalls, hcl]
      have hstep := deployments_step_le R (decide (storedMarker c req = some R))
        (decide (s.Status.Sync.Revision = R)) rest
      simp only [decide_eq_true_eq] at hstep
      simp only [List.countP_nil]
      omega
    · obtain ⟨a, e, _, _, _, hcalls, _, hcl⟩ := h
      rw [hcl, storedMarker_deploy] at hih
      rw [hcalls, hcl]
      have hstep := deployments_step_le R (decide (storedMarker c req = some R))
        (decide (s.Status.Sync.Revision = R)) rest
      simp only [decide_eq_true_eq] at hstep
      simp only [List.countP_cons, List.countP_nil, Call.isSendFor, Nat.zero_add]
      simp only [Bool.false_eq_true, if_false, Nat.add_zero]
      omega
    · obtain ⟨a, e, hget, _, _, _, hcalls, _, hm⟩ := h
      obtain ⟨hst, _⟩ := Get_deploy hget
      rw [hm, hst] at hih
      rw [hcalls]
      simp only [List.countP_cons, List.countP_nil, Call.isSendFor, Nat.zero_add]
      simp only [Bool.false_eq_true, if_false, Nat.add_zero]
      simp only [Option.some.injEq] at hih
      omega
    · obtain ⟨a, repository, hget, hne, _, _, hcalls, _, _, hm⟩ := h
      obtain ⟨hst, hmark⟩ := Get_deploy hget
      rw [hm, hst] at hih
      rw [hmark, hst] at hne
      rw [hcalls]
      simp only [List.countP_cons, List.countP_nil, Call.isSendFor, Nat.zero_add]
      simp only [Bool.false_eq_true, if_false, Nat.add_zero, hst, decide_eq_true_eq]
      simp only [Option.some.injEq] at hih
      by_cases hR : s.Status.Sync.Revision = R
      · have hheld : decide (storedMarker c req = some R) = false := by
          rw [decide_eq_false_iff_not, ← hR]
          exact hne
        rw [hheld]
        simp only [hR, if_true, and_self] at hih ⊢
        omega
      · simp only [hR, if_false, false_and] at hih ⊢
        omega

end ArgocdCommenter
